import Mathlib

/-!
Verification of the n8n workflow visualizer (`src/lib/n8n_visualizer.py`,
CLI wrapper `src/lib/n8n_visualize.py`) against its natural-language
specification.  The Python code is shallowly embedded: JSON values become
the inductive `JVal`, the `networkx.DiGraph` built by
`create_workflow_graph` becomes the structure `DiGraph` (a simple directed
graph: node-keyed attribute list plus a duplicate-free edge list, exactly
the semantics of `nx.DiGraph`), fallible Python code returns
`Except PyErr`, and Python numbers are modelled as rationals.
-/

namespace N8nViz

/-- JSON values as produced by Python's `json.load`: `null`, booleans,
numbers (modelled as rationals), strings, arrays and objects. -/
inductive JVal where
  | jnull
  | jbool (b : Bool)
  | jnum (q : ℚ)
  | jstr (s : String)
  | jarr (elems : List JVal)
  | jobj (fields : List (String × JVal))

mutual

/-- Decidable equality for `JVal` (manual, because of the nested lists). -/
def JVal.decEq : (a b : JVal) → Decidable (a = b)
  | .jnull, .jnull => isTrue rfl
  | .jnull, .jbool _ => isFalse (fun h => nomatch h)
  | .jnull, .jnum _ => isFalse (fun h => nomatch h)
  | .jnull, .jstr _ => isFalse (fun h => nomatch h)
  | .jnull, .jarr _ => isFalse (fun h => nomatch h)
  | .jnull, .jobj _ => isFalse (fun h => nomatch h)
  | .jbool _, .jnull => isFalse (fun h => nomatch h)
  | .jbool a, .jbool b =>
    if h : a = b then isTrue (by rw [h])
    else isFalse (by intro k; injection k; contradiction)
  | .jbool _, .jnum _ => isFalse (fun h => nomatch h)
  | .jbool _, .jstr _ => isFalse (fun h => nomatch h)
  | .jbool _, .jarr _ => isFalse (fun h => nomatch h)
  | .jbool _, .jobj _ => isFalse (fun h => nomatch h)
  | .jnum _, .jnull => isFalse (fun h => nomatch h)
  | .jnum _, .jbool _ => isFalse (fun h => nomatch h)
  | .jnum a, .jnum b =>
    if h : a = b then isTrue (by rw [h])
    else isFalse (by intro k; injection k; contradiction)
  | .jnum _, .jstr _ => isFalse (fun h => nomatch h)
  | .jnum _, .jarr _ => isFalse (fun h => nomatch h)
  | .jnum _, .jobj _ => isFalse (fun h => nomatch h)
  | .jstr _, .jnull => isFalse (fun h => nomatch h)
  | .jstr _, .jbool _ => isFalse (fun h => nomatch h)
  | .jstr _, .jnum _ => isFalse (fun h => nomatch h)
  | .jstr a, .jstr b =>
    if h : a = b then isTrue (by rw [h])
    else isFalse (by intro k; injection k; contradiction)
  | .jstr _, .jarr _ => isFalse (fun h => nomatch h)
  | .jstr _, .jobj _ => isFalse (fun h => nomatch h)
  | .jarr _, .jnull => isFalse (fun h => nomatch h)
  | .jarr _, .jbool _ => isFalse (fun h => nomatch h)
  | .jarr _, .jnum _ => isFalse (fun h => nomatch h)
  | .jarr _, .jstr _ => isFalse (fun h => nomatch h)
  | .jarr a, .jarr b =>
    match JVal.decEqList a b with
    | isTrue h => isTrue (by rw [h])
    | isFalse h => isFalse (by intro k; injection k; contradiction)
  | .jarr _, .jobj _ => isFalse (fun h => nomatch h)
  | .jobj _, .jnull => isFalse (fun h => nomatch h)
  | .jobj _, .jbool _ => isFalse (fun h => nomatch h)
  | .jobj _, .jnum _ => isFalse (fun h => nomatch h)
  | .jobj _, .jstr _ => isFalse (fun h => nomatch h)
  | .jobj _, .jarr _ => isFalse (fun h => nomatch h)
  | .jobj a, .jobj b =>
    match JVal.decEqFields a b with
    | isTrue h => isTrue (by rw [h])
    | isFalse h => isFalse (by intro k; injection k; contradiction)

/-- Decidable equality for lists of `JVal`. -/
def JVal.decEqList : (xs ys : List JVal) → Decidable (xs = ys)
  | [], [] => isTrue rfl
  | [], _ :: _ => isFalse (fun h => nomatch h)
  | _ :: _, [] => isFalse (fun h => nomatch h)
  | x :: xs, y :: ys =>
    match JVal.decEq x y with
    | isFalse h => isFalse (by intro k; injection k; contradiction)
    | isTrue h1 =>
      match JVal.decEqList xs ys with
      | isTrue h2 => isTrue (by rw [h1, h2])
      | isFalse h => isFalse (by intro k; injection k; contradiction)

/-- Decidable equality for JSON object field lists. -/
def JVal.decEqFields : (xs ys : List (String × JVal)) → Decidable (xs = ys)
  | [], [] => isTrue rfl
  | [], _ :: _ => isFalse (fun h => nomatch h)
  | _ :: _, [] => isFalse (fun h => nomatch h)
  | (k₁, v₁) :: xs, (k₂, v₂) :: ys =>
    if hk : k₁ = k₂ then
      match JVal.decEq v₁ v₂ with
      | isFalse h => isFalse (by intro k; injection k with k k'; injection k; contradiction)
      | isTrue hv =>
        match JVal.decEqFields xs ys with
        | isTrue ht => isTrue (by rw [hk, hv, ht])
        | isFalse h => isFalse (by intro k; injection k; contradiction)
    else isFalse (by intro k; injection k with k k'; injection k; contradiction)

end

instance : DecidableEq JVal := JVal.decEq

/-- Python exception kinds that the embedded code can raise. -/
inductive PyErr where
  | valueError
  | typeError
  | attributeError
  | indexError
  | keyError
deriving DecidableEq, Repr

/-- Python truthiness of a JSON value (`None`, `False`, `0`, `""`, `[]`,
`{}` are falsy, everything else truthy). -/
def truthy : JVal → Bool
  | .jnull => false
  | .jbool b => b
  | .jnum q => !(q == 0)
  | .jstr s => !(s == "")
  | .jarr xs => !xs.isEmpty
  | .jobj kvs => !kvs.isEmpty

/-- Python `d.get(k, default)` on a parsed JSON object: the stored value if
the key is present (even when that value is `null`), the default otherwise.
`json.load` produces dicts with unique keys, so lookup takes the first
match. -/
def pyGetD (kvs : List (String × JVal)) (k : String) (d : JVal) : JVal :=
  match kvs.find? (fun kv => kv.1 == k) with
  | some kv => kv.2
  | none => d

/-- Python iteration `for x in v`: lists yield their elements, dicts their
keys, strings their characters; `None`, booleans and numbers are not
iterable (`TypeError`). -/
def iterElems : JVal → Except PyErr (List JVal)
  | .jarr xs => .ok xs
  | .jobj kvs => .ok (kvs.map (fun kv => .jstr kv.1))
  | .jstr s => .ok (s.data.map (fun c => .jstr (String.mk [c])))
  | _ => .error .typeError

/-- Python subscript `v[i]` with a nonnegative integer literal `i`:
list/string indexing (out of range is `IndexError`), a dict raises
`KeyError` (JSON object keys are strings, never the integer `i`), the rest
raise `TypeError`. -/
def pySubscript (v : JVal) (i : Nat) : Except PyErr JVal :=
  match v with
  | .jarr xs =>
    match xs.get? i with
    | some x => .ok x
    | none => .error .indexError
  | .jstr s =>
    match s.data.get? i with
    | some c => .ok (.jstr (String.mk [c]))
    | none => .error .indexError
  | .jobj _ => .error .keyError
  | _ => .error .typeError

/-- Numeric coercion used by Python division `v / 100`: ints and floats
are numbers, `True`/`False` count as `1`/`0`; everything else raises
`TypeError`. -/
def asNum : JVal → Except PyErr ℚ
  | .jnum q => .ok q
  | .jbool b => .ok (if b then 1 else 0)
  | _ => .error .typeError

/-- Python `v.lower()` availability: only strings have `.lower`; any other
value raises `AttributeError` (this is what `_get_node_color` does with a
non-string type tag). -/
def asLowerable : JVal → Except PyErr String
  | .jstr s => .ok s
  | _ => .error .attributeError

/-- Python `str.lower()`, restricted to the per-character lowering that is
all the source's ASCII keywords need. -/
def pyLower (s : String) : String := String.mk (s.data.map Char.toLower)

/-- Helper for substring search: does `pat` occur at the head of `hay`? -/
def charsStartWith : List Char → List Char → Bool
  | _, [] => true
  | [], _ :: _ => false
  | h :: hs, p :: ps => h == p && charsStartWith hs ps

/-- Substring containment on character lists (Python's `pat in hay`). -/
def charsContain : List Char → List Char → Bool
  | [], pat => pat.isEmpty
  | h :: t, pat => charsStartWith (h :: t) pat || charsContain t pat

/-- Python `needle in hay.lower()` as used throughout `_get_node_color`. -/
def pyIn (needle hay : String) : Bool :=
  charsContain (pyLower hay).data needle.data

/-- The `self.node_colors` dict of `N8nWorkflowVisualizer.__init__`. -/
def node_colors : List (String × String) :=
  [("trigger", "#ff6b6b"), ("action", "#4ecdc4"), ("condition", "#ffe66d"),
   ("function", "#a8e6cf"), ("default", "#95a5a6")]

/-- Lookup `self.node_colors[k]` (always called with one of the five keys
present in the dict). -/
def colorOf (k : String) : String :=
  match node_colors.find? (fun kv => kv.1 == k) with
  | some kv => kv.2
  | none => ""

/-- `N8nWorkflowVisualizer._get_node_color`, lines 27-38 of
`n8n_visualizer.py`: first-match-wins substring tests on the lowered type
tag. -/
def get_node_color (node_type : String) : String :=
  if pyIn "trigger" node_type then colorOf "trigger"
  else if pyIn "if" node_type || pyIn "switch" node_type then colorOf "condition"
  else if pyIn "function" node_type || pyIn "code" node_type then colorOf "function"
  else if pyIn "http" node_type || pyIn "webhook" node_type || pyIn "email" node_type
       || pyIn "slack" node_type || pyIn "telegram" node_type then colorOf "action"
  else colorOf "default"

/-- The attributes `create_workflow_graph` attaches to every node:
`label`, `type`, `pos` (already affine-transformed) and `color`. -/
structure NodeAttrs where
  label : JVal
  typ : JVal
  pos : ℚ × ℚ
  color : String

/-- An `nx.DiGraph`: insertion-ordered node list keyed by (hashable)
Python values, and a duplicate-free directed edge list (a simple digraph —
`nx.DiGraph` stores at most one edge per ordered pair). -/
structure DiGraph where
  nodes : List (JVal × NodeAttrs)
  edges : List (JVal × JVal)

/-- The empty graph `nx.DiGraph()`. -/
def DiGraph.empty : DiGraph := ⟨[], []⟩

/-- Python values that are not hashable and therefore cannot be graph
nodes (lists and dicts). -/
def unhashable : JVal → Bool
  | .jarr _ => true
  | .jobj _ => true
  | _ => false

/-- `G.has_node(v)`: `networkx` returns `False` for unhashable values
(it catches the `TypeError`), otherwise tests key membership. -/
def DiGraph.hasNode (g : DiGraph) (v : JVal) : Bool :=
  !unhashable v && decide (v ∈ g.nodes.map Prod.fst)

/-- Attribute insertion of `G.add_node(k, **attr)` for a hashable,
non-`None` key: an existing node keeps its position in insertion order and
has its attributes overwritten (the call sites always pass the full
attribute set), a new node is appended. -/
def DiGraph.insertNode (g : DiGraph) (k : JVal) (a : NodeAttrs) : DiGraph :=
  if k ∈ g.nodes.map Prod.fst then
    { g with nodes := g.nodes.map (fun kv => if kv.1 = k then (kv.1, a) else kv) }
  else
    { g with nodes := g.nodes ++ [(k, a)] }

/-- `G.add_node(id, ...)` as called at line 62: `networkx` (pinned
`>=2.8.0` in `setup.py`) raises `ValueError("None cannot be a node")` for
`None`, `TypeError` for unhashable keys, and otherwise inserts. A missing
or `null` `"id"` field reaches this call as Python `None`. -/
def DiGraph.addNode (g : DiGraph) (k : JVal) (a : NodeAttrs) : Except PyErr DiGraph :=
  if unhashable k then .error .typeError
  else if k = .jnull then .error .valueError
  else .ok (g.insertNode k a)

/-- `G.add_edge(s, t)` on a `DiGraph`: an already-present ordered pair is
not duplicated (only its attribute dict would be updated). Both call
sites are guarded by `G.has_node` on both endpoints, so the
missing-endpoint auto-insertion of `networkx` never fires and is not
modelled. -/
def DiGraph.addEdge (g : DiGraph) (s t : JVal) : DiGraph :=
  if (s, t) ∈ g.edges then g
  else { g with edges := g.edges ++ [(s, t)] }

/-- The default used for a missing `"position"` field (line 60 of
`n8n_visualizer.py`): the Python list `[0, 0]`. -/
def posDefault : JVal := .jarr [.jnum 0, .jnum 0]

/-- Evaluation of the keyword arguments of the `G.add_node` call (lines
62-67): `label` and `type` default via `.get`, the position is scaled by
the affine transform `(position[0]/100, -position[1]/100)` (indexing and
division can raise, in this order), and the color requires the type tag to
be a string (`.lower()` inside `_get_node_color`). -/
def nodeAttrsOf (kvs : List (String × JVal)) : Except PyErr NodeAttrs := do
  let position := pyGetD kvs "position" posDefault
  let x ← pySubscript position 0
  let xq ← asNum x
  let y ← pySubscript position 1
  let yq ← asNum y
  let t ← asLowerable (pyGetD kvs "type" (.jstr "unknown"))
  pure { label := pyGetD kvs "name" (.jstr "Unnamed"),
         typ := pyGetD kvs "type" (.jstr "unknown"),
         pos := (xq / 100, -(yq / 100)),
         color := get_node_color t }

/-- One iteration of the node loop (lines 56-68): the descriptor must be a
dict (`.get` on anything else raises `AttributeError`); the keyword
arguments are evaluated, then `G.add_node` is called with
`node.get('id')` — Python `None` when the field is absent or `null`. -/
def procNode (g : DiGraph) (node : JVal) : Except PyErr DiGraph :=
  match node with
  | .jobj kvs => do
    let a ← nodeAttrsOf kvs
    g.addNode (pyGetD kvs "id" .jnull) a
  | _ => .error .attributeError

/-- Innermost connection step (lines 77-80): a non-dict descriptor is
skipped; otherwise the edge is added only when `connection.get('node')` is
truthy and both endpoints pass `G.has_node`. -/
def procConn (srcKey : String) (g : DiGraph) (conn : JVal) : DiGraph :=
  match conn with
  | .jobj kvs =>
    let target := pyGetD kvs "node" .jnull
    if truthy target && g.hasNode (.jstr srcKey) && g.hasNode target then
      g.addEdge (.jstr srcKey) target
    else g
  | _ => g

/-- A connection group (lines 75-76): only honoured when it is a list. -/
def procGroup (srcKey : String) (g : DiGraph) (grp : JVal) : DiGraph :=
  match grp with
  | .jarr conns => conns.foldl (procConn srcKey) g
  | _ => g

/-- One output port's connection groups (lines 73-74): only honoured when
the value is a list. -/
def procOutput (srcKey : String) (g : DiGraph) (out : JVal) : DiGraph :=
  match out with
  | .jarr groups => groups.foldl (procGroup srcKey) g
  | _ => g

/-- One source node's output map (line 72): `source_outputs.items()`
requires a dict, anything else raises `AttributeError`. -/
def procSource (g : DiGraph) (srcKey : String) (outputs : JVal) : Except PyErr DiGraph :=
  match outputs with
  | .jobj outs => .ok (outs.foldl (fun h kv => procOutput srcKey h kv.2) g)
  | _ => .error .attributeError

/-- The whole edge loop (lines 71-80): `connections.items()` requires a
dict. -/
def procConnections (g : DiGraph) (connections : JVal) : Except PyErr DiGraph :=
  match connections with
  | .jobj srcs => srcs.foldlM (fun h kv => procSource h kv.1 kv.2) g
  | _ => .error .attributeError

/-- `N8nWorkflowVisualizer.create_workflow_graph` (lines 40-82): both
top-level fields default when absent (`nodes` to `[]`, `connections` to
`{}`), the node loop runs first, then the edge loop. The document itself
must be a dict (`.get` otherwise raises `AttributeError`). -/
def create_workflow_graph (w : JVal) : Except PyErr DiGraph :=
  match w with
  | .jobj kvs => do
    let nodes := pyGetD kvs "nodes" (.jarr [])
    let connections := pyGetD kvs "connections" (.jobj [])
    let elems ← iterElems nodes
    let g ← elems.foldlM procNode DiGraph.empty
    procConnections g connections
  | _ => .error .attributeError

/-- The two layout sources of `visualize_workflow_matplotlib`. -/
inductive Layout where
  | authored (coords : List (JVal × (ℚ × ℚ)))
  | spring

/-- The per-node coordinates stored in the graph, as collected by
`nx.get_node_attributes(G, 'pos')` (every node added by
`create_workflow_graph` carries a `pos` attribute). -/
def posMap (g : DiGraph) : List (JVal × (ℚ × ℚ)) :=
  g.nodes.map (fun ka => (ka.1, ka.2.pos))

/-- Layout choice of `visualize_workflow_matplotlib` (lines 112-118): the
stored `pos` attributes are used unless that mapping is empty, in which
case `nx.spring_layout` runs. -/
def resolveLayout (g : DiGraph) : Layout :=
  if (posMap g).isEmpty then .spring else .authored (posMap g)

/-- Whether a layout is the force-directed (spring) one. -/
def Layout.isSpring : Layout → Bool
  | .spring => true
  | .authored _ => false

/-- One hexadecimal digit, as accepted by `int(_, 16)` for the lowercase
hex literals in `self.node_colors`. -/
def hexDigit (c : Char) : Option Nat :=
  if '0' ≤ c ∧ c ≤ '9' then some (c.toNat - 48)
  else if 'a' ≤ c ∧ c ≤ 'f' then some (c.toNat - 87)
  else if 'A' ≤ c ∧ c ≤ 'F' then some (c.toNat - 55)
  else none

/-- `int(color[j:j+2], 16)`: the two-character slice starting at `j`
parsed as hex (`ValueError` on anything else, including short slices). -/
def hexPairAt (s : String) (j : Nat) : Except PyErr Nat :=
  match s.data.get? j, s.data.get? (j + 1) with
  | some c₁, some c₂ =>
    match hexDigit c₁, hexDigit c₂ with
    | some d₁, some d₂ => .ok (16 * d₁ + d₂)
    | _, _ => .error .valueError
  | _, _ => .error .valueError

/-- Lines 224-228 of `create_simple_diagram`: a `#`-prefixed color is
parsed into an RGB triple, anything else becomes the default gray. -/
def rgbOf (color : String) : Except PyErr (Nat × Nat × Nat) :=
  if color.data.get? 0 = some '#' then do
    let r ← hexPairAt color 1
    let g ← hexPairAt color 3
    let b ← hexPairAt color 5
    pure (r, g, b)
  else .ok (149, 165, 166)

/-- A node rectangle drawn by the fallback renderer: grid position and
fill color. -/
structure SimpleRect where
  x : Int
  y : Int
  rgb : Nat × Nat × Nat

/-- Lines 214-231 of `create_simple_diagram`, up to and including the
`draw.rectangle` call for the `i`-th drawn node: the descriptor must be a
dict, its type tag a string, and the color parses into RGB; the grid cell
comes from floor division and modulus by `cols`. -/
def rectOf (cols : Int) (i : Nat) (node : JVal) : Except PyErr SimpleRect :=
  match node with
  | .jobj kvs => do
    let t ← asLowerable (pyGetD kvs "type" (.jstr "unknown"))
    let rgb ← rgbOf (get_node_color t)
    let col : Int := (i : Int).emod cols
    let row : Int := (i : Int).fdiv cols
    pure { x := 20 + col * (120 + 20), y := 60 + row * (40 + 20), rgb := rgb }
  | _ => .error .attributeError

/-- Lines 234-245: the label drawn inside the rectangle. A non-string
name fails with `TypeError` (at `len`, at the `+ '...'` concatenation or
inside `draw.text`, depending on its shape); a string longer than 15
characters is truncated to 12 plus `'...'`. -/
def nameOf (node : JVal) : Except PyErr String :=
  match node with
  | .jobj kvs =>
    match pyGetD kvs "name" (.jstr "Unnamed") with
    | .jstr s => .ok (if s.length > 15 then String.mk (s.data.take 12) ++ "..." else s)
    | _ => .error .typeError
  | _ => .error .attributeError

/-- The node loop of `create_simple_diagram` (lines 213-245): each
iteration draws the rectangle first and only then the label, so an
exception while handling the label still leaves that rectangle drawn; the
first exception aborts the whole loop. Returns the rectangles drawn and
the aborting error, if any. -/
def drawLoop (cols : Int) : Nat → List JVal → List SimpleRect × Option PyErr
  | _, [] => ([], none)
  | i, n :: rest =>
    match rectOf cols i n with
    | .error e => ([], some e)
    | .ok r =>
      match nameOf n with
      | .error e => ([r], some e)
      | .ok _ =>
        let p := drawLoop cols (i + 1) rest
        (r :: p.1, p.2)

/-- Python `v[:20]` (line 213): lists and strings slice, dicts and scalars
raise `TypeError`. -/
def slice20 : JVal → Except PyErr (List JVal)
  | .jarr xs => .ok (xs.take 20)
  | .jstr s => .ok ((s.data.take 20).map (fun c => .jstr (String.mk [c])))
  | _ => .error .typeError

/-- Outcome of `create_simple_diagram`: its boolean return value, the node
rectangles drawn onto the canvas, and whether `img.save` ran (the image is
saved only after the whole loop finishes; any exception is caught and
turns into `False` with no file written). -/
structure SimpleOutcome where
  success : Bool
  rects : List SimpleRect
  wrote : Bool

/-- `N8nWorkflowVisualizer.create_simple_diagram` (lines 164-257):
early-`False` on a falsy `nodes` value (before any drawing and before the
save), fixed grid of `max(1, (width - 2*20) // (120 + 20))` columns over
the first 20 nodes, `img.save` only on full success. Font loading and the
title/footer text cannot fail. -/
def create_simple_diagram (w : JVal) (width : Int) : SimpleOutcome :=
  match w with
  | .jobj kvs =>
    let nodes := pyGetD kvs "nodes" (.jarr [])
    if truthy nodes then
      match slice20 nodes with
      | .error _ => ⟨false, [], false⟩
      | .ok l =>
        let cols := max 1 ((width - 2 * 20).fdiv (120 + 20))
        let p := drawLoop cols 0 l
        ⟨p.2.isNone, p.1, p.2.isNone⟩
    else ⟨false, [], false⟩
  | _ => ⟨false, [], false⟩

/-- Outcome of `visualize_workflow_matplotlib`: whether it returned the
output path (success) or `None`, whether `plt.savefig` ran, and the layout
it drew with. -/
structure MplOutcome where
  success : Bool
  wrote : Bool
  layout : Option Layout

/-- `N8nWorkflowVisualizer.visualize_workflow_matplotlib` (lines 84-162),
called with an output path as `visualize_file` does: an exception from
graph construction is caught and yields `None`; a zero-node graph returns
`None` before any figure is created; otherwise the layout is resolved and
the figure saved. The matplotlib drawing and saving calls themselves are
modelled as succeeding — only the explicit control flow around them is in
scope for the claims. -/
def visualize_workflow_matplotlib (w : JVal) : MplOutcome :=
  match create_workflow_graph w with
  | .error _ => ⟨false, false, none⟩
  | .ok g =>
    if g.nodes.isEmpty then ⟨false, false, none⟩
    else ⟨true, true, some (resolveLayout g)⟩

/-- Outcome of `visualize_file` on an existing, JSON-parsable input:
overall success and which stages wrote the artifact file. -/
structure FileOutcome where
  success : Bool
  mplWrote : Bool
  simpleWrote : Bool

/-- `N8nWorkflowVisualizer.visualize_file` (lines 259-304), after the file
has been read and parsed into `w`: try matplotlib, and on `None` fall back
to `create_simple_diagram` (which `visualize_file` calls with the default
`width=800`). -/
def visualize_file (w : JVal) : FileOutcome :=
  let m := visualize_workflow_matplotlib w
  if m.success then ⟨true, m.wrote, false⟩
  else
    let s := create_simple_diagram w 800
    ⟨s.success, m.wrote, s.wrote⟩

/-- Exit code of the `n8n_visualize.py` CLI (lines 41-52) once the input
path exists and parses: `0` when `visualize_file` returned a path, `1`
when it returned `None`. -/
def cliExitCode (w : JVal) : Nat :=
  if (visualize_file w).success then 0 else 1

/-- The five style categories named by the specification (§4.2). -/
inductive Category where
  | trigger
  | condition
  | function
  | action
  | default
deriving DecidableEq, Repr

/-- The `node_colors` key that belongs to each category. -/
def Category.key : Category → String
  | .trigger => "trigger"
  | .condition => "condition"
  | .function => "function"
  | .action => "action"
  | .default => "default"

/-- Modelled from the spec (§4.2): the explicit, ordered predicate list of
the NodeClassifier contract — tag contains "trigger"; tag contains "if" or
"switch"; tag contains "function" or "code"; tag contains one of "http",
"webhook", "email", "slack", "telegram" — all case-insensitive. -/
def specRules : List ((String → Bool) × Category) :=
  [(fun s => pyIn "trigger" s, .trigger),
   (fun s => pyIn "if" s || pyIn "switch" s, .condition),
   (fun s => pyIn "function" s || pyIn "code" s, .function),
   (fun s => pyIn "http" s || pyIn "webhook" s || pyIn "email" s
             || pyIn "slack" s || pyIn "telegram" s, .action)]

/-- Modelled from the spec (§4.2): first-match-wins evaluation of an
ordered predicate list, falling through to `default`. -/
def firstMatch : List ((String → Bool) × Category) → String → Category
  | [], _ => .default
  | r :: rest, s => if r.1 s then r.2 else firstMatch rest s

/-- Modelled from the spec (§4.2): the specified classifier. -/
def specCategory (s : String) : Category := firstMatch specRules s

/-- A well-formed edge relative to a node list: truthy target and both
endpoints among the node keys. -/
def goodEdge (ns : List (JVal × NodeAttrs)) (e : JVal × JVal) : Prop :=
  truthy e.2 = true ∧ e.1 ∈ ns.map Prod.fst ∧ e.2 ∈ ns.map Prod.fst

/-- Invariant: every stored edge is well formed for the graph's own node
list. -/
def edgesOk (g : DiGraph) : Prop := ∀ e ∈ g.edges, goodEdge g.nodes e

theorem except_bind_ok {α β : Type} {x : Except PyErr α} {f : α → Except PyErr β} {b : β}
    (h : x >>= f = .ok b) : ∃ a, x = .ok a ∧ f a = .ok b := by
  cases x with
  | error e => exact Except.noConfusion (show Except.error e = Except.ok b from h)
  | ok a => exact ⟨a, rfl, h⟩

theorem foldl_preserve {α β : Type} {f : β → α → β} {P : β → Prop}
    (hf : ∀ b a, P b → P (f b a)) :
    ∀ (l : List α) (b : β), P b → P (l.foldl f b) := by
  intro l
  induction l with
  | nil => intro b hb; exact hb
  | cons a t ih => intro b hb; rw [List.foldl_cons]; exact ih _ (hf b a hb)

theorem foldlM_preserve {α β : Type} {f : β → α → Except PyErr β} {P : β → Prop}
    (hf : ∀ b a b', f b a = .ok b' → P b → P b') :
    ∀ (l : List α) (b b' : β), l.foldlM f b = .ok b' → P b → P b' := by
  intro l
  induction l with
  | nil =>
    intro b b' h hb
    rw [List.foldlM_nil] at h
    exact (Except.ok.inj h) ▸ hb
  | cons a t ih =>
    intro b b' h hb
    rw [List.foldlM_cons] at h
    obtain ⟨b₁, h₁, h₂⟩ := except_bind_ok h
    exact ih b₁ b' h₂ (hf b a b₁ h₁ hb)

theorem insertNode_edges (g : DiGraph) (k : JVal) (a : NodeAttrs) :
    (g.insertNode k a).edges = g.edges := by
  unfold DiGraph.insertNode
  split <;> rfl

theorem insertNode_nodes_ne_nil (g : DiGraph) (k : JVal) (a : NodeAttrs) :
    (g.insertNode k a).nodes ≠ [] := by
  unfold DiGraph.insertNode
  by_cases hc : k ∈ g.nodes.map Prod.fst <;> simp [hc]
  intro hnil
  rw [hnil] at hc
  simp at hc

theorem mem_insertNode {g : DiGraph} {k : JVal} {a : NodeAttrs} {ka : JVal × NodeAttrs}
    (h : ka ∈ (g.insertNode k a).nodes) : ka ∈ g.nodes ∨ (ka.1 = k ∧ ka.2 = a) := by
  unfold DiGraph.insertNode at h
  by_cases hc : k ∈ g.nodes.map Prod.fst
  · rw [if_pos hc] at h
    obtain ⟨kv, hkv, heq⟩ := List.mem_map.mp h
    by_cases hk : kv.1 = k
    · rw [if_pos hk] at heq
      refine Or.inr ⟨?_, ?_⟩
      · rw [← heq]; exact hk
      · rw [← heq]
    · rw [if_neg hk] at heq
      exact Or.inl (heq ▸ hkv)
  · rw [if_neg hc] at h
    rcases List.mem_append.mp h with h | h
    · exact Or.inl h
    · have hk := List.mem_singleton.mp h
      exact Or.inr ⟨by rw [hk], by rw [hk]⟩

theorem addNode_ok {g : DiGraph} {k : JVal} {a : NodeAttrs} {g' : DiGraph}
    (h : g.addNode k a = .ok g') :
    k ≠ .jnull ∧ unhashable k = false ∧ g' = g.insertNode k a := by
  unfold DiGraph.addNode at h
  by_cases h1 : unhashable k = true
  · simp [h1] at h
  · simp [h1] at h
    by_cases h2 : k = JVal.jnull
    · simp [h2] at h
    · simp [h2] at h
      exact ⟨h2, by simpa using h1, h.symm⟩

theorem procNode_ok {g : DiGraph} {d : JVal} {g' : DiGraph} (h : procNode g d = .ok g') :
    ∃ dkvs a, d = .jobj dkvs ∧ nodeAttrsOf dkvs = .ok a ∧
      pyGetD dkvs "id" .jnull ≠ .jnull ∧
      g' = g.insertNode (pyGetD dkvs "id" .jnull) a := by
  cases d <;> simp only [procNode] at h <;> try exact Except.noConfusion h
  rename_i dkvs
  obtain ⟨a, ha, hadd⟩ := except_bind_ok h
  obtain ⟨hnn, _, hins⟩ := addNode_ok hadd
  exact ⟨dkvs, a, rfl, ha, hnn, hins⟩

theorem procNode_edges {g : DiGraph} {d : JVal} {g' : DiGraph} (h : procNode g d = .ok g') :
    g'.edges = g.edges := by
  obtain ⟨dkvs, a, _, _, _, hins⟩ := procNode_ok h
  rw [hins, insertNode_edges]

theorem procNode_nodes_ne_nil {g : DiGraph} {d : JVal} {g' : DiGraph}
    (h : procNode g d = .ok g') : g'.nodes ≠ [] := by
  obtain ⟨dkvs, a, _, _, _, hins⟩ := procNode_ok h
  rw [hins]
  exact insertNode_nodes_ne_nil g _ a

theorem addEdge_nodes (g : DiGraph) (s t : JVal) : (g.addEdge s t).nodes = g.nodes := by
  unfold DiGraph.addEdge
  split <;> rfl

theorem mem_addEdge {g : DiGraph} {s t : JVal} {e : JVal × JVal}
    (h : e ∈ (g.addEdge s t).edges) : e ∈ g.edges ∨ e = (s, t) := by
  unfold DiGraph.addEdge at h
  by_cases hc : (s, t) ∈ g.edges <;> simp [hc] at h
  · exact Or.inl h
  · exact h

theorem addEdge_nodup {g : DiGraph} (h : g.edges.Nodup) (s t : JVal) :
    (g.addEdge s t).edges.Nodup := by
  unfold DiGraph.addEdge
  by_cases hc : (s, t) ∈ g.edges <;> simp [hc]
  · exact h
  · simp [List.nodup_append, h, hc]

theorem hasNode_mem {g : DiGraph} {v : JVal} (h : g.hasNode v = true) :
    v ∈ g.nodes.map Prod.fst := by
  unfold DiGraph.hasNode at h
  rw [Bool.and_eq_true, decide_eq_true_eq] at h
  exact h.2

theorem procConn_nodes (k : String) (g : DiGraph) (c : JVal) :
    (procConn k g c).nodes = g.nodes := by
  cases c <;> simp only [procConn]
  split
  · exact addEdge_nodes g _ _
  · rfl

theorem procGroup_nodes (k : String) (g : DiGraph) (grp : JVal) :
    (procGroup k g grp).nodes = g.nodes := by
  cases grp <;> simp only [procGroup]
  exact foldl_preserve (f := procConn k) (P := fun h => h.nodes = g.nodes)
    (fun b a hb => by dsimp only at hb ⊢; rw [procConn_nodes, hb]) _ g rfl

theorem procOutput_nodes (k : String) (g : DiGraph) (out : JVal) :
    (procOutput k g out).nodes = g.nodes := by
  cases out <;> simp only [procOutput]
  exact foldl_preserve (f := procGroup k) (P := fun h => h.nodes = g.nodes)
    (fun b a hb => by dsimp only at hb ⊢; rw [procGroup_nodes, hb]) _ g rfl

theorem procSource_nodes {g : DiGraph} {k : String} {o : JVal} {g' : DiGraph}
    (h : procSource g k o = .ok g') : g'.nodes = g.nodes := by
  cases o <;> simp only [procSource] at h <;> try exact Except.noConfusion h
  rw [← Except.ok.inj h]
  exact foldl_preserve (f := fun (h : DiGraph) (kv : String × JVal) => procOutput k h kv.2)
    (P := fun h => h.nodes = g.nodes)
    (fun b a hb => by dsimp only at hb ⊢; rw [procOutput_nodes, hb]) _ g rfl

theorem procConnections_nodes {g : DiGraph} {c : JVal} {g' : DiGraph}
    (h : procConnections g c = .ok g') : g'.nodes = g.nodes := by
  cases c <;> simp only [procConnections] at h <;> try exact Except.noConfusion h
  exact foldlM_preserve (P := fun h => h.nodes = g.nodes)
    (fun b a b' hb hP => by dsimp only at hP ⊢; rw [procSource_nodes hb, hP]) _ g g' h rfl

theorem procConn_edgesOk {k : String} {g : DiGraph} {c : JVal} (h : edgesOk g) :
    edgesOk (procConn k g c) := by
  cases c <;> simp only [procConn] <;> try exact h
  rename_i kvs
  split
  · rename_i hguard
    rw [Bool.and_eq_true, Bool.and_eq_true] at hguard
    intro e he
    unfold goodEdge
    rw [addEdge_nodes]
    rcases mem_addEdge he with h1 | h1
    · exact h e h1
    · rw [h1]
      exact ⟨hguard.1.1, hasNode_mem hguard.1.2, hasNode_mem hguard.2⟩
  · exact h

theorem procGroup_edgesOk {k : String} {g : DiGraph} {grp : JVal} (h : edgesOk g) :
    edgesOk (procGroup k g grp) := by
  cases grp <;> simp only [procGroup] <;> try exact h
  exact foldl_preserve (P := edgesOk) (fun b a hb => procConn_edgesOk hb) _ g h

theorem procOutput_edgesOk {k : String} {g : DiGraph} {out : JVal} (h : edgesOk g) :
    edgesOk (procOutput k g out) := by
  cases out <;> simp only [procOutput] <;> try exact h
  exact foldl_preserve (P := edgesOk) (fun b a hb => procGroup_edgesOk hb) _ g h

theorem procSource_edgesOk {g : DiGraph} {k : String} {o : JVal} {g' : DiGraph}
    (hok : procSource g k o = .ok g') (h : edgesOk g) : edgesOk g' := by
  cases o <;> simp only [procSource] at hok <;> try exact Except.noConfusion hok
  rw [← Except.ok.inj hok]
  exact foldl_preserve (P := edgesOk) (fun b a hb => procOutput_edgesOk hb) _ g h

theorem procConnections_edgesOk {g : DiGraph} {c : JVal} {g' : DiGraph}
    (hok : procConnections g c = .ok g') (h : edgesOk g) : edgesOk g' := by
  cases c <;> simp only [procConnections] at hok <;> try exact Except.noConfusion hok
  exact foldlM_preserve (P := edgesOk)
    (fun b a b' hb hP => procSource_edgesOk hb hP) _ g g' hok h

theorem procConn_nodup {k : String} {g : DiGraph} {c : JVal} (h : g.edges.Nodup) :
    (procConn k g c).edges.Nodup := by
  cases c <;> simp only [procConn] <;> try exact h
  split
  · exact addEdge_nodup h _ _
  · exact h

theorem procGroup_nodup {k : String} {g : DiGraph} {grp : JVal} (h : g.edges.Nodup) :
    (procGroup k g grp).edges.Nodup := by
  cases grp <;> simp only [procGroup] <;> try exact h
  exact foldl_preserve (P := fun x => x.edges.Nodup) (fun b a hb => procConn_nodup hb) _ g h

theorem procOutput_nodup {k : String} {g : DiGraph} {out : JVal} (h : g.edges.Nodup) :
    (procOutput k g out).edges.Nodup := by
  cases out <;> simp only [procOutput] <;> try exact h
  exact foldl_preserve (P := fun x => x.edges.Nodup) (fun b a hb => procGroup_nodup hb) _ g h

theorem procSource_nodup {g : DiGraph} {k : String} {o : JVal} {g' : DiGraph}
    (hok : procSource g k o = .ok g') (h : g.edges.Nodup) : g'.edges.Nodup := by
  cases o <;> simp only [procSource] at hok <;> try exact Except.noConfusion hok
  rw [← Except.ok.inj hok]
  exact foldl_preserve (P := fun x => x.edges.Nodup) (fun b a hb => procOutput_nodup hb) _ g h

theorem procConnections_nodup {g : DiGraph} {c : JVal} {g' : DiGraph}
    (hok : procConnections g c = .ok g') (h : g.edges.Nodup) : g'.edges.Nodup := by
  cases c <;> simp only [procConnections] at hok <;> try exact Except.noConfusion hok
  exact foldlM_preserve (P := fun x => x.edges.Nodup)
    (fun b a b' hb hP => procSource_nodup hb hP) _ g g' hok h

theorem create_ok_inv {w : JVal} {g : DiGraph} (h : create_workflow_graph w = .ok g) :
    ∃ kvs elems gN,
      w = .jobj kvs ∧
      iterElems (pyGetD kvs "nodes" (.jarr [])) = .ok elems ∧
      elems.foldlM procNode DiGraph.empty = .ok gN ∧
      procConnections gN (pyGetD kvs "connections" (.jobj [])) = .ok g := by
  cases w <;> simp only [create_workflow_graph] at h <;> try exact Except.noConfusion h
  rename_i kvs
  obtain ⟨elems, he, h⟩ := except_bind_ok h
  obtain ⟨gN, hgN, h⟩ := except_bind_ok h
  exact ⟨kvs, elems, gN, rfl, he, hgN, h⟩

theorem buildNodes_edges_nil {elems : List JVal} {gN : DiGraph}
    (h : elems.foldlM procNode DiGraph.empty = .ok gN) : gN.edges = [] :=
  foldlM_preserve (P := fun x => x.edges = [])
    (fun b a b' hb hP => by dsimp only at hP ⊢; rw [procNode_edges hb, hP]) elems DiGraph.empty gN h rfl

theorem create_edgesOk {w : JVal} {g : DiGraph} (h : create_workflow_graph w = .ok g) :
    edgesOk g := by
  obtain ⟨kvs, elems, gN, hw, hiter, hbuild, hconn⟩ := create_ok_inv h
  have hEN : gN.edges = [] := buildNodes_edges_nil hbuild
  have hOkN : edgesOk gN := by
    intro e he
    rw [hEN] at he
    cases he
  exact procConnections_edgesOk hconn hOkN

theorem buildNodes_mem : ∀ (l : List JVal) (g g' : DiGraph),
    l.foldlM procNode g = .ok g' → ∀ ka ∈ g'.nodes,
    ka ∈ g.nodes ∨ ∃ dkvs, JVal.jobj dkvs ∈ l ∧
      pyGetD dkvs "id" .jnull = ka.1 ∧ nodeAttrsOf dkvs = .ok ka.2 := by
  intro l
  induction l with
  | nil =>
    intro g g' h ka hka
    rw [List.foldlM_nil] at h
    exact Or.inl ((Except.ok.inj h) ▸ hka)
  | cons d t ih =>
    intro g g' h ka hka
    rw [List.foldlM_cons] at h
    obtain ⟨g₁, h₁, h₂⟩ := except_bind_ok h
    rcases ih g₁ g' h₂ ka hka with hmem | ⟨dkvs, hd, hid, ha⟩
    · obtain ⟨dkvs, a, hdd, haat, _, hins⟩ := procNode_ok h₁
      rcases mem_insertNode (hins ▸ hmem) with hmem' | ⟨hk, hv⟩
      · exact Or.inl hmem'
      · refine Or.inr ⟨dkvs, by rw [hdd]; exact List.mem_cons_self _ _, hk.symm, ?_⟩
        rw [hv]
        exact haat
    · exact Or.inr ⟨dkvs, List.mem_cons_of_mem _ hd, hid, ha⟩

theorem buildNodes_nil_inv : ∀ (l : List JVal) (g g' : DiGraph),
    l.foldlM procNode g = .ok g' → g'.nodes = [] → l = [] ∧ g' = g := by
  intro l
  cases l with
  | nil =>
    intro g g' h _
    rw [List.foldlM_nil] at h
    exact ⟨rfl, (Except.ok.inj h).symm⟩
  | cons d t =>
    intro g g' h hnil
    rw [List.foldlM_cons] at h
    obtain ⟨g₁, h₁, h₂⟩ := except_bind_ok h
    have hne₁ : g₁.nodes ≠ [] := procNode_nodes_ne_nil h₁
    have hne : g'.nodes ≠ [] :=
      foldlM_preserve (P := fun x => x.nodes ≠ [])
        (fun b a b' hb _ => procNode_nodes_ne_nil hb) t g₁ g' h₂ hne₁
    exact absurd hnil hne

theorem iterElems_nil_not_truthy {v : JVal} (h : iterElems v = .ok []) :
    truthy v = false := by
  cases v <;> simp only [iterElems] at h <;> try exact Except.noConfusion h
  · rename_i s
    have hd : s.data = [] := List.map_eq_nil_iff.mp (Except.ok.inj h)
    cases s
    rename_i data
    simp at hd
    rw [hd]
    rfl
  · rename_i xs
    have hd : xs = [] := Except.ok.inj h
    rw [hd]
    rfl
  · rename_i kvs
    have hd : kvs = [] := List.map_eq_nil_iff.mp (Except.ok.inj h)
    rw [hd]
    rfl

theorem nodeAttrsOf_pos {kvs : List (String × JVal)} {a : NodeAttrs} {x y : ℚ} {rest : List JVal}
    (hpos : pyGetD kvs "position" posDefault = .jarr (.jnum x :: .jnum y :: rest))
    (h : nodeAttrsOf kvs = .ok a) : a.pos = (x / 100, -(y / 100)) := by
  simp only [nodeAttrsOf, hpos] at h
  obtain ⟨x', hx', h⟩ := except_bind_ok h
  rw [← (Except.ok.inj hx' : JVal.jnum x = x')] at h
  obtain ⟨xq, hxq, h⟩ := except_bind_ok h
  rw [← (Except.ok.inj hxq : x = xq)] at h
  obtain ⟨y', hy', h⟩ := except_bind_ok h
  rw [← (Except.ok.inj hy' : JVal.jnum y = y')] at h
  obtain ⟨yq, hyq, h⟩ := except_bind_ok h
  rw [← (Except.ok.inj hyq : y = yq)] at h
  obtain ⟨t, ht, h⟩ := except_bind_ok h
  rw [← Except.ok.inj h]

theorem nodeAttrsOf_default_pos {kvs : List (String × JVal)} {a : NodeAttrs}
    (hpos : kvs.find? (fun kv => kv.1 == "position") = none)
    (h : nodeAttrsOf kvs = .ok a) : a.pos = (0, 0) := by
  have hp : pyGetD kvs "position" posDefault = .jarr (.jnum 0 :: .jnum 0 :: []) := by
    simp [pyGetD, hpos, posDefault]
  rw [nodeAttrsOf_pos hp h]
  norm_num

theorem resolveLayout_nonempty {g : DiGraph} (h : g.nodes ≠ []) :
    resolveLayout g = .authored (posMap g) := by
  have hne : (posMap g).isEmpty = false := by
    simp [posMap, List.isEmpty_iff, h]
  simp [resolveLayout, hne]

theorem drawLoop_length (cols : Int) : ∀ (i : Nat) (l : List JVal),
    ((drawLoop cols i l).1).length ≤ l.length := by
  intro i l
  induction l generalizing i with
  | nil => simp [drawLoop]
  | cons n t ih =>
    rcases hr : rectOf cols i n with e | r <;> simp only [drawLoop, hr]
    · simp
    · rcases hn : nameOf n with e | s <;> simp only [hn]
      · simp
      · simpa using ih (i + 1)

theorem nodup_filter_eq_le_one {α : Type} [DecidableEq α] {l : List α} (h : l.Nodup) (c : α) :
    (l.filter (fun e => decide (e = c))).length ≤ 1 := by
  induction l with
  | nil => simp
  | cons a t ih =>
    rw [List.filter_cons]
    by_cases hac : a = c
    · have hct : c ∉ t := hac ▸ (List.nodup_cons.mp h).1
      have hnil : t.filter (fun e => decide (e = c)) = [] := by
        rw [List.filter_eq_nil_iff]
        intro b hb hbc
        rw [decide_eq_true_eq] at hbc
        exact hct (hbc ▸ hb)
      simp [hac, hnil]
    · rw [if_neg (by simpa using hac)]
      exact ih (List.nodup_cons.mp h).2

/-- Number of stored edges from `s` to `t`. -/
def edgeCount (g : DiGraph) (s t : JVal) : Nat :=
  (g.edges.filter (fun e => decide (e = (s, t)))).length

/-- C1: for every parsed workflow document, `create_workflow_graph` stores
an edge `(source, target)` only if both endpoint identifiers exist among
the built node records — connection descriptors with a missing endpoint
are dropped and no dangling edge is ever stored. -/
theorem c1_edges_only_between_existing_nodes (w : JVal) (g : DiGraph)
    (h : create_workflow_graph w = .ok g) :
    ∀ e ∈ g.edges, e.1 ∈ g.nodes.map Prod.fst ∧ e.2 ∈ g.nodes.map Prod.fst := by
  intro e he
  obtain ⟨_, h1, h2⟩ := create_edgesOk h e he
  exact ⟨h1, h2⟩

/-- Witness document for C1: nodes `a`, `b`; one connection to the
existing `b` and one to the missing `c`. -/
def c1Doc : JVal :=
  .jobj [("nodes", .jarr [.jobj [("id", .jstr "a")], .jobj [("id", .jstr "b")]]),
         ("connections", .jobj [("a", .jobj [("main",
            .jarr [.jarr [.jobj [("node", .jstr "b")], .jobj [("node", .jstr "c")]]])])])]

/-- The graph built from the C1 witness document. -/
def c1Graph : DiGraph := (create_workflow_graph c1Doc).toOption.getD DiGraph.empty

/-- Witness for C1: the one retained edge of the concrete document has
both endpoints among the built node identifiers (the descriptor aimed at
the missing `c` was dropped). -/
theorem c1_witness :
    JVal.jstr "a" ∈ c1Graph.nodes.map Prod.fst ∧
    JVal.jstr "b" ∈ c1Graph.nodes.map Prod.fst :=
  c1_edges_only_between_existing_nodes c1Doc c1Graph rfl (.jstr "a", .jstr "b") (by decide)

/-- C10: a connection descriptor whose target identifier is the empty
string never yields an edge, even when a node with identifier `""` exists,
because the target is tested for truthiness (line 79) rather than only for
membership: no stored edge has an empty-string target. -/
theorem c10_empty_string_target_never_stored (w : JVal) (g : DiGraph)
    (h : create_workflow_graph w = .ok g) :
    ∀ e ∈ g.edges, e.2 ≠ .jstr "" := by
  intro e he heq
  obtain ⟨ht, _, _⟩ := create_edgesOk h e he
  rw [heq] at ht
  exact absurd ht (by decide)

/-- Witness document for C10: a node whose identifier is the empty string
exists, one connection targets `""` (dropped) and one targets `x`
(retained). -/
def c10Doc : JVal :=
  .jobj [("nodes", .jarr [.jobj [("id", .jstr "")], .jobj [("id", .jstr "a")],
                          .jobj [("id", .jstr "x")]]),
         ("connections", .jobj [("a", .jobj [("main",
            .jarr [.jarr [.jobj [("node", .jstr "")], .jobj [("node", .jstr "x")]]])])])]

/-- The graph built from the C10 witness document. -/
def c10Graph : DiGraph := (create_workflow_graph c10Doc).toOption.getD DiGraph.empty

/-- Witness for C10: the target of the one stored edge of the concrete
document is not the empty string. -/
theorem c10_witness : decide (JVal.jstr "x" ≠ JVal.jstr "") = true :=
  decide_eq_true
    (c10_empty_string_target_never_stored c10Doc c10Graph rfl (.jstr "a", .jstr "x") (by decide))

/-- Document with two well-formed connection descriptors between the same
pair `a → b` (both nodes present). -/
def c4Doc : JVal :=
  .jobj [("nodes", .jarr [.jobj [("id", .jstr "a")], .jobj [("id", .jstr "b")]]),
         ("connections", .jobj [("a", .jobj [("main",
            .jarr [.jarr [.jobj [("node", .jstr "b")], .jobj [("node", .jstr "b")]]])])])]

/-- Counterexample to C4: the document `c4Doc` carries `k = 2` well-formed
connection descriptors from `a` to `b`, yet the built graph stores exactly
1 edge between the pair, not 2 — `nx.DiGraph` deduplicates parallel
edges, so the multiset claim fails. -/
theorem c4_counterexample :
    (create_workflow_graph c4Doc).map (fun g => edgeCount g (.jstr "a") (.jstr "b")) = .ok 1 := rfl

/-- C4 (amended): the edge list of a built graph never contains duplicate
ordered pairs — for any pair of identifiers the stored edge count is at
most 1, whatever the number `k` of connection descriptors between them. -/
theorem c4_amended_edges_deduplicated (w : JVal) (g : DiGraph)
    (h : create_workflow_graph w = .ok g) :
    g.edges.Nodup ∧ ∀ s t : JVal, edgeCount g s t ≤ 1 := by
  obtain ⟨kvs, elems, gN, hw, hiter, hbuild, hconn⟩ := create_ok_inv h
  have hEN : gN.edges = [] := buildNodes_edges_nil hbuild
  have hnd : g.edges.Nodup := procConnections_nodup hconn (by rw [hEN]; exact List.nodup_nil)
  exact ⟨hnd, fun s t => nodup_filter_eq_le_one hnd (s, t)⟩

/-- The graph built from `c4Doc`. -/
def c4Graph : DiGraph := (create_workflow_graph c4Doc).toOption.getD DiGraph.empty

/-- Witness for the amended C4 at a concrete document and the concrete
pair `a → b` that carries two descriptors. -/
theorem c4_witness : c4Graph.edges.Nodup ∧ edgeCount c4Graph (.jstr "a") (.jstr "b") ≤ 1 :=
  ⟨(c4_amended_edges_deduplicated c4Doc c4Graph rfl).1,
   (c4_amended_edges_deduplicated c4Doc c4Graph rfl).2 (.jstr "a") (.jstr "b")⟩

/-- Counterexample to C2: a document with a single node descriptor whose
identifier field is absent. The claim says the descriptor is skipped and
no error is raised; instead `create_workflow_graph` reaches
`G.add_node(None, ...)`, which raises `ValueError` in `networkx`
(pinned `>=2.8.0`). -/
theorem c2_counterexample :
    create_workflow_graph (.jobj [("nodes", .jarr [.jobj []])]) = .error .valueError := rfl

/-- C2 (amended): a node descriptor whose identifier field is absent (or
`null`) is not skipped — as soon as its other fields evaluate,
`create_workflow_graph` raises `ValueError` from `G.add_node(None, ...)`
and builds no graph. -/
theorem c2_missing_id_raises (kvs dkvs : List (String × JVal)) (rest : List JVal) (a : NodeAttrs)
    (hn : pyGetD kvs "nodes" (.jarr []) = .jarr (.jobj dkvs :: rest))
    (hid : pyGetD dkvs "id" .jnull = .jnull)
    (ha : nodeAttrsOf dkvs = .ok a) :
    create_workflow_graph (.jobj kvs) = .error .valueError := by
  have hA : create_workflow_graph (.jobj kvs) =
      (JVal.jobj dkvs :: rest).foldlM procNode DiGraph.empty >>=
        fun gN => procConnections gN (pyGetD kvs "connections" (.jobj [])) := by
    simp only [create_workflow_graph, hn]
    rfl
  have hB : procNode DiGraph.empty (.jobj dkvs) = .error .valueError := by
    simp only [procNode, ha, hid]
    rfl
  rw [hA, List.foldlM_cons, hB]
  rfl

/-- The node attributes computed for the empty descriptor `{}`. -/
def c2Attrs : NodeAttrs :=
  (nodeAttrsOf []).toOption.getD ⟨.jnull, .jnull, (0, 0), ""⟩

/-- Witness for the amended C2 at a concrete document. -/
theorem c2_witness :
    create_workflow_graph (.jobj [("nodes", .jarr [.jobj []])]) = .error .valueError :=
  c2_missing_id_raises [("nodes", .jarr [.jobj []])] [] [] c2Attrs rfl rfl rfl

/-- Counterexample to C3: a document with no `"nodes"` field at all. The
claim says this must signal `InvalidGraphStructure`; instead
`create_workflow_graph` defaults the field to `[]` and succeeds with an
empty graph. -/
theorem c3_counterexample : create_workflow_graph (.jobj []) = .ok DiGraph.empty := rfl

/-- C3 (amended): `create_workflow_graph` never raises for a missing
optional field, and a missing top-level `"nodes"` field is not an error
either — both fields default (`nodes` to `[]`, `connections` to `{}`) and
the result is the empty graph; no `InvalidGraphStructure` error exists in
the code. -/
theorem c3_missing_fields_no_error (kvs : List (String × JVal))
    (h1 : kvs.find? (fun kv => kv.1 == "nodes") = none)
    (h2 : kvs.find? (fun kv => kv.1 == "connections") = none) :
    create_workflow_graph (.jobj kvs) = .ok DiGraph.empty := by
  have hn : pyGetD kvs "nodes" (.jarr []) = .jarr [] := by
    simp [pyGetD, h1]
  have hc : pyGetD kvs "connections" (.jobj []) = .jobj [] := by
    simp [pyGetD, h2]
  simp only [create_workflow_graph, hn, hc]
  rfl

/-- Witness for the amended C3 at a concrete document that has neither
`"nodes"` nor `"connections"`. -/
theorem c3_witness :
    create_workflow_graph (.jobj [("name", .jstr "wf")]) = .ok DiGraph.empty :=
  c3_missing_fields_no_error [("name", .jstr "wf")] rfl rfl

/-- C5: `_get_node_color` agrees everywhere with the specification's
first-match-wins ordered predicate list (trigger, condition, function,
action, default) — so it is total and deterministic on all strings — and
the overlapping tag "Webhook Trigger" classifies as trigger, not action. -/
theorem c5_classifier_matches_spec_order :
    (∀ s : String, get_node_color s = colorOf (Category.key (specCategory s))) ∧
    specCategory "Webhook Trigger" = Category.trigger ∧
    get_node_color "Webhook Trigger" = colorOf (Category.key Category.trigger) := by
  refine ⟨?_, by decide, rfl⟩
  intro s
  simp only [get_node_color, specCategory, specRules, firstMatch]
  cases h1 : pyIn "trigger" s <;>
    cases h2 : (pyIn "if" s || pyIn "switch" s) <;>
      cases h3 : (pyIn "function" s || pyIn "code" s) <;>
        cases h4 : (pyIn "http" s || pyIn "webhook" s || pyIn "email" s
                    || pyIn "slack" s || pyIn "telegram" s) <;>
          simp [h1, h2, h3, h4, Category.key, colorOf]

/-- Document in which node `a` has an authored position `[100, 200]` while
node `b` lacks one. -/
def c6Doc : JVal :=
  .jobj [("nodes", .jarr [.jobj [("id", .jstr "a"), ("position", .jarr [.jnum 100, .jnum 200])],
                          .jobj [("id", .jstr "b")]])]

/-- Counterexample to C6: in `c6Doc` one node lacks an authored position,
yet the resolved layout is not the spring layout — it is the authored
layout in which node `a`'s coordinate is exactly the affine transform
`(100/100, -(200/100))` of its authored position and node `b` gets the
transform of the default position `[0, 0]`. -/
theorem c6_counterexample :
    (create_workflow_graph c6Doc).map resolveLayout =
      .ok (.authored [(.jstr "a", ((100 : ℚ) / 100, -((200 : ℚ) / 100))),
                      (.jstr "b", ((0 : ℚ) / 100, -((0 : ℚ) / 100)))]) ∧
    (create_workflow_graph c6Doc).map (fun g => (resolveLayout g).isSpring) = .ok false :=
  ⟨rfl, rfl⟩

/-- C6 (amended): a node descriptor lacking an authored position receives
the default position `[0, 0]`, whose affine image is `(0, 0)`; authored
positions of the other nodes are kept, and the renderer uses the stored
(affine-transformed) coordinates for every node of any nonempty graph —
the spring layout is never triggered by a missing position. -/
theorem c6_default_position_not_spring :
    (∀ (w : JVal) (g : DiGraph), create_workflow_graph w = .ok g → g.nodes ≠ [] →
      resolveLayout g = .authored (posMap g)) ∧
    (∀ (kvs : List (String × JVal)) (a : NodeAttrs),
      kvs.find? (fun kv => kv.1 == "position") = none →
      nodeAttrsOf kvs = .ok a → a.pos = (0, 0)) := by
  constructor
  · intro w g _ hne
    exact resolveLayout_nonempty hne
  · intro kvs a h1 h2
    exact nodeAttrsOf_default_pos h1 h2

/-- The graph built from `c6Doc`. -/
def c6Graph : DiGraph := (create_workflow_graph c6Doc).toOption.getD DiGraph.empty

/-- The node attributes computed for the position-less descriptor of
`c6Doc`'s node `b`. -/
def c6Attrs : NodeAttrs :=
  (nodeAttrsOf [("id", .jstr "b")]).toOption.getD ⟨.jnull, .jnull, (1, 1), ""⟩

/-- Witness for the amended C6 at concrete inputs. -/
theorem c6_witness :
    resolveLayout c6Graph = .authored (posMap c6Graph) ∧ c6Attrs.pos = (0, 0) :=
  ⟨c6_default_position_not_spring.1 c6Doc c6Graph rfl
     (fun h => List.noConfusion (show _ :: _ = ([] : List (JVal × NodeAttrs)) from h)),
   c6_default_position_not_spring.2 [("id", .jstr "b")] c6Attrs rfl rfl⟩

/-- C7: when every node descriptor carries an authored position `[x, y]`,
every built node record's resolved coordinate is exactly
`(x/100, -(y/100))` for the authored position of a descriptor with its
identifier, and the renderer lays out every node of a nonempty graph at
exactly these stored coordinates. -/
theorem c7_authored_positions_affine (kvs : List (String × JVal)) (descs : List JVal)
    (g : DiGraph)
    (hnodes : pyGetD kvs "nodes" (.jarr []) = .jarr descs)
    (hpos : ∀ d ∈ descs, ∃ dkvs x y rest, d = .jobj dkvs ∧
        pyGetD dkvs "position" posDefault = .jarr (.jnum x :: .jnum y :: rest))
    (hok : create_workflow_graph (.jobj kvs) = .ok g) :
    (∀ ka ∈ g.nodes, ∃ (x y : ℚ), ka.2.pos = (x / 100, -(y / 100)) ∧
      ∃ dkvs rest, JVal.jobj dkvs ∈ descs ∧
        pyGetD dkvs "position" posDefault = .jarr (.jnum x :: .jnum y :: rest) ∧
        pyGetD dkvs "id" .jnull = ka.1) ∧
    (g.nodes ≠ [] → resolveLayout g = .authored (posMap g)) := by
  obtain ⟨kvs', elems, gN, hw, hiter, hbuild, hconn⟩ := create_ok_inv hok
  have hkv : kvs = kvs' := by injection hw
  subst hkv
  rw [hnodes] at hiter
  have helems : descs = elems := Except.ok.inj hiter
  subst helems
  have hgnodes : g.nodes = gN.nodes := procConnections_nodes hconn
  constructor
  · intro ka hka
    rw [hgnodes] at hka
    rcases buildNodes_mem descs DiGraph.empty gN hbuild ka hka with hmem | ⟨dkvs, hd, hid, ha⟩
    · cases hmem
    · obtain ⟨dkvs', x, y, rest, hdd, hpd⟩ := hpos (.jobj dkvs) hd
      have hde : dkvs = dkvs' := by injection hdd
      subst hde
      exact ⟨x, y, nodeAttrsOf_pos hpd ha, dkvs, rest, hd, hpd, hid⟩
  · intro hne
    exact resolveLayout_nonempty hne

/-- The field list of the C7 witness document: both nodes carry authored
positions. -/
def c7KVs : List (String × JVal) :=
  [("nodes", .jarr [.jobj [("id", .jstr "a"), ("position", .jarr [.jnum 100, .jnum 200])],
                    .jobj [("id", .jstr "b"), ("position", .jarr [.jnum 300, .jnum 400])]])]

/-- The node descriptors of the C7 witness document. -/
def c7Descs : List JVal :=
  [.jobj [("id", .jstr "a"), ("position", .jarr [.jnum 100, .jnum 200])],
   .jobj [("id", .jstr "b"), ("position", .jarr [.jnum 300, .jnum 400])]]

/-- The graph built from the C7 witness document. -/
def c7Graph : DiGraph := (create_workflow_graph (.jobj c7KVs)).toOption.getD DiGraph.empty

/-- The first node record of `c7Graph` (node `a`). -/
def c7KA : JVal × NodeAttrs := c7Graph.nodes.getD 0 (.jnull, ⟨.jnull, .jnull, (0, 0), ""⟩)

/-- The position hypothesis of C7 holds for the witness document: every
descriptor carries a numeric authored position. -/
theorem c7_all_positioned : ∀ d ∈ c7Descs, ∃ dkvs x y rest, d = .jobj dkvs ∧
    pyGetD dkvs "position" posDefault = .jarr (.jnum x :: .jnum y :: rest) := by
  intro d hd
  rcases List.mem_cons.mp hd with h | h
  · exact ⟨[("id", .jstr "a"), ("position", .jarr [.jnum 100, .jnum 200])],
           100, 200, [], h, rfl⟩
  · rcases List.mem_cons.mp h with h2 | h2
    · exact ⟨[("id", .jstr "b"), ("position", .jarr [.jnum 300, .jnum 400])],
             300, 400, [], h2, rfl⟩
    · exact absurd h2 (List.not_mem_nil d)

/-- Witness for C7: node `a` of the concrete document resolves to the
affine transform of an authored position, and the layout keeps the stored
coordinates. -/
theorem c7_witness :
    (∃ (x y : ℚ), c7KA.2.pos = (x / 100, -(y / 100)) ∧
      ∃ dkvs rest, JVal.jobj dkvs ∈ c7Descs ∧
        pyGetD dkvs "position" posDefault = .jarr (.jnum x :: .jnum y :: rest) ∧
        pyGetD dkvs "id" .jnull = c7KA.1) ∧
    resolveLayout c7Graph = .authored (posMap c7Graph) :=
  ⟨(c7_authored_positions_affine c7KVs c7Descs c7Graph rfl c7_all_positioned rfl).1
     c7KA (List.mem_cons_self _ _),
   (c7_authored_positions_affine c7KVs c7Descs c7Graph rfl c7_all_positioned rfl).2
     (fun h => List.noConfusion (show _ :: _ = ([] : List (JVal × NodeAttrs)) from h))⟩

/-- C8: for every document whose `"nodes"` field is a list of `N`
descriptors, the fallback renderer draws at most `min(N, 20)` node
rectangles, whatever `N` and whatever canvas width. -/
theorem c8_fallback_at_most_twenty_rects (kvs : List (String × JVal)) (l : List JVal)
    (width : Int)
    (h : pyGetD kvs "nodes" (.jarr []) = .jarr l) :
    ((create_simple_diagram (.jobj kvs) width).rects).length ≤ min l.length 20 := by
  simp only [create_simple_diagram, h]
  by_cases ht : truthy (.jarr l) = true
  · rw [if_pos ht]
    simp only [slice20]
    refine le_trans (drawLoop_length _ 0 (l.take 20)) ?_
    rw [List.length_take]
    exact le_of_eq (min_comm 20 l.length)
  · rw [if_neg ht]
    simp

/-- The field list of the C8 witness document (three node descriptors). -/
def c8KVs : List (String × JVal) :=
  [("nodes", .jarr [.jobj [("id", .jstr "a")], .jobj [("id", .jstr "b")],
                    .jobj [("id", .jstr "c")]])]

/-- The node-descriptor list of the C8 witness document. -/
def c8List : List JVal :=
  [.jobj [("id", .jstr "a")], .jobj [("id", .jstr "b")], .jobj [("id", .jstr "c")]]

/-- Witness for C8 at a concrete document and the default width. -/
theorem c8_witness :
    ((create_simple_diagram (.jobj c8KVs) 800).rects).length ≤ min c8List.length 20 :=
  c8_fallback_at_most_twenty_rects c8KVs c8List 800 rfl

/-- C9: for every document whose built graph has zero nodes, the primary
renderer returns `None` before creating a figure, the fallback renderer
returns `False` before saving, `visualize_file` reports failure with
neither stage writing an artifact, and the CLI exit code is the nonzero
value 1. -/
theorem c9_zero_node_graph_fails_without_writing (w : JVal) (g : DiGraph)
    (hok : create_workflow_graph w = .ok g) (hempty : g.nodes = []) :
    visualize_workflow_matplotlib w = ⟨false, false, none⟩ ∧
    create_simple_diagram w 800 = ⟨false, [], false⟩ ∧
    visualize_file w = ⟨false, false, false⟩ ∧
    cliExitCode w = 1 := by
  obtain ⟨kvs, elems, gN, hw, hiter, hbuild, hconn⟩ := create_ok_inv hok
  subst hw
  have hgN : gN.nodes = [] := by
    rw [← procConnections_nodes hconn]
    exact hempty
  obtain ⟨helems, -⟩ := buildNodes_nil_inv elems DiGraph.empty gN hbuild hgN
  subst helems
  have htr : truthy (pyGetD kvs "nodes" (.jarr [])) = false := iterElems_nil_not_truthy hiter
  have hm : visualize_workflow_matplotlib (.jobj kvs) = ⟨false, false, none⟩ := by
    simp [visualize_workflow_matplotlib, hok, hempty]
  have hs : create_simple_diagram (.jobj kvs) 800 = ⟨false, [], false⟩ := by
    simp [create_simple_diagram, htr]
  refine ⟨hm, hs, ?_, ?_⟩
  · simp [visualize_file, hm, hs]
  · simp [cliExitCode, visualize_file, hm, hs]

/-- Witness for C9 at a concrete document with an empty node list. -/
theorem c9_witness :
    visualize_workflow_matplotlib (.jobj [("nodes", .jarr [])]) = ⟨false, false, none⟩ ∧
    create_simple_diagram (.jobj [("nodes", .jarr [])]) 800 = ⟨false, [], false⟩ ∧
    visualize_file (.jobj [("nodes", .jarr [])]) = ⟨false, false, false⟩ ∧
    cliExitCode (.jobj [("nodes", .jarr [])]) = 1 :=
  c9_zero_node_graph_fails_without_writing (.jobj [("nodes", .jarr [])]) DiGraph.empty rfl rfl

end N8nViz
